import Mathlib

/-!
Shallow embedding of the todoist-lager-app warehouse helper (Express/Node).

The embedding covers the parts of the source the verified claims are about:

* the Completion Log ("Ausbuch-Log"): the file-backed map of
  `src/index-av.js` (`setCompletedInLog` / `getCompletedFromLog`) and the
  Postgres-backed store of `src/ausbuchLogStore.js` (`setCompleted` /
  `getCompletedAt`), both modelled as association lists keyed by task id;
* the text normalizers `normalizeProject`, `toTitleCase`, `normalizeDrawing`
  of `src/index.js`;
* the list sorter `sortTasksByPriorityAndName` of `src/index.js`, with the
  locale-aware `localeCompare` comparison kept as an explicit parameter;
* the HTTP handlers `GET /complete/:taskId`, `GET /scan/:taskId` and
  `POST /scan/:taskId` of `src/index.js` (current variant) and the
  `GET /complete/:taskId` handler of `src/index-av.js`, modelled as pure
  state transformers over the log plus an explicit trace of remote and log
  effects; remote-service outcomes (task fetch, close, open-task listing)
  are passed in as parameters;
* the middleware pipeline of `src/index.js` (av-router mount, then the
  `basicAuth` middleware, then the remaining routes).
-/

namespace Lager

/-! ## Completion Log -/

/-- The completion log: a finite map from task id to completion timestamp
(ISO string).  The JSON object of `src/index-av.js` and the `ausbuch_log`
table of `src/ausbuchLogStore.js` are both keyed by task id, so both are
modelled as an association list with unique keys in insertion order. -/
abbrev Log := List (String × String)

/-- `getCompletedFromLog` of `src/index-av.js` (`logObj[String(taskId)] || null`)
and `getCompletedAt` of `src/ausbuchLogStore.js` (select by primary key):
look up the stored timestamp, `none` when the task was never checked out. -/
def getCompletedFromLog (log : Log) (taskId : String) : Option String :=
  match log.find? (fun p => p.fst = taskId) with
  | some p => some p.snd
  | none => none

/-- `setCompletedInLog` of `src/index-av.js`: `logObj[String(taskId)] = iso`
followed by a whole-file rewrite.  A JavaScript property assignment replaces
the value of an existing key in place and appends a fresh key at the end. -/
def setCompletedInLog (log : Log) (taskId ts : String) : Log :=
  if (log.find? (fun p => p.fst = taskId)).isSome then
    log.map (fun p => if p.fst = taskId then (taskId, ts) else p)
  else
    log ++ [(taskId, ts)]

/-- `setCompleted` of `src/ausbuchLogStore.js`:
`insert … on conflict (task_id) do update set completed_at = excluded.completed_at`.
On a keyed table this replaces the timestamp of an existing row and inserts a
fresh row otherwise; the timestamp value (`now()` server-side) is a parameter. -/
def setCompleted (log : Log) (taskId ts : String) : Log :=
  if (log.find? (fun p => p.fst = taskId)).isSome then
    log.map (fun p => if p.fst = taskId then (taskId, ts) else p)
  else
    log ++ [(taskId, ts)]

theorem find?_map_update (taskId ts : String) :
    ∀ log : Log, (log.find? (fun p => p.fst = taskId)).isSome →
      (log.map (fun p => if p.fst = taskId then (taskId, ts) else p)).find?
        (fun p => p.fst = taskId) = some (taskId, ts)
  | [], h => by simp at h
  | p :: rest, h => by
    by_cases hp : p.fst = taskId
    · simp [hp]
    · have h' : (rest.find? (fun q => q.fst = taskId)).isSome := by
        rwa [List.find?_cons_of_neg _ (by simpa using hp)] at h
      simp only [List.map_cons, if_neg hp]
      rw [List.find?_cons_of_neg _ (by simpa using hp)]
      exact find?_map_update taskId ts rest h'

theorem get_setCompletedInLog_same (log : Log) (taskId ts : String) :
    getCompletedFromLog (setCompletedInLog log taskId ts) taskId = some ts := by
  unfold getCompletedFromLog setCompletedInLog
  by_cases h : (log.find? (fun p => p.fst = taskId)).isSome
  · rw [if_pos h, find?_map_update taskId ts log h]
  · rw [Option.not_isSome_iff_eq_none] at h
    rw [if_neg (by simp [h])]
    simp [List.find?_append, h]

theorem setCompleted_eq_setCompletedInLog (log : Log) (taskId ts : String) :
    setCompleted log taskId ts = setCompletedInLog log taskId ts := rfl

theorem get_setCompleted_same (log : Log) (taskId ts : String) :
    getCompletedFromLog (setCompleted log taskId ts) taskId = some ts := by
  rw [setCompleted_eq_setCompletedInLog]
  exact get_setCompletedInLog_same log taskId ts

/-- C1: the claim states that a second `set` for an already-recorded task id is
a no-op that retains the originally stored timestamp.  On the code this is
false: both store variants overwrite — `setCompletedInLog` assigns
`logObj[taskId] = iso` unconditionally, and `setCompleted` upserts with
`on conflict do update set completed_at = excluded.completed_at`.  Setting
task 1001 first to the January timestamp and then to the February timestamp
leaves the February timestamp in the log, not the original one. -/
theorem c1_set_overwrites_counterexample :
    getCompletedFromLog
      (setCompletedInLog (setCompletedInLog [] "1001" "2024-01-01T10:00:00Z")
        "1001" "2024-02-02T12:00:00Z") "1001" = some "2024-02-02T12:00:00Z" ∧
    getCompletedFromLog
      (setCompletedInLog (setCompletedInLog [] "1001" "2024-01-01T10:00:00Z")
        "1001" "2024-02-02T12:00:00Z") "1001" ≠ some "2024-01-01T10:00:00Z" ∧
    getCompletedFromLog
      (setCompleted (setCompleted [] "1001" "2024-01-01T10:00:00Z")
        "1001" "2024-02-02T12:00:00Z") "1001" ≠ some "2024-01-01T10:00:00Z" := by
  refine ⟨by decide, by decide, by decide⟩

/-- C1 (amended): the Completion Log's set operation has upsert-overwrite
(last-write-wins) semantics: after `setCompletedInLog` (file store) or
`setCompleted` (Postgres store) the log always maps the task id to the
timestamp just written, replacing any previously stored `completed_at`.
First-write-wins behaviour is enforced at the workflow level by the
handlers' get-before-set check, not by the set operation itself. -/
theorem c1_set_upsert_overwrite (log : Log) (taskId ts : String) :
    getCompletedFromLog (setCompletedInLog log taskId ts) taskId = some ts ∧
    getCompletedFromLog (setCompleted log taskId ts) taskId = some ts :=
  ⟨get_setCompletedInLog_same log taskId ts, get_setCompleted_same log taskId ts⟩

/-! ## Project-code normalizer (`normalizeProject`, src/index.js) -/

/-- The uppercase-then-strip step of `normalizeProject`:
`raw.toUpperCase().replace(/[^A-Z0-9K]/g, '').trim()`.  The character class
keeps ASCII uppercase letters and digits (the extra K is already inside A-Z),
and the trailing `.trim()` is a no-op because no whitespace survives the
replace.  `Char.toUpper` maps ASCII letters like the JavaScript call does on
the inputs of interest. -/
def projectFiltered (raw : List Char) : List Char :=
  (raw.map Char.toUpper).filter (fun c => c.isUpper || c.isDigit)

/-- The reassembly step of `normalizeProject`: letter run right-padded with
`'X'` to 4 characters, digit run right-padded with `'0'` to 4 characters
(`(letters + 'XXXX').slice(0, 4)` and `(digits + '0000').slice(0, 4)`),
plus the remembered trailing `'K'`. -/
def projectCore (s : List Char) (hasK : Bool) : List Char :=
  ((s.filter Char.isUpper) ++ ['X', 'X', 'X', 'X']).take 4 ++
    (((s.filter Char.isDigit) ++ ['0', '0', '0', '0']).take 4 ++
      (if hasK then ['K'] else []))

/-- `normalizeProject` of src/index.js on character lists: empty (falsy) input
returns the empty string; otherwise uppercase and strip, remember and drop an
optional trailing `'K'` (`s.endsWith('K')`), then reassemble 4 letters plus
4 digits plus the optional `'K'`. -/
def normalizeProjectL (raw : List Char) : List Char :=
  if raw = [] then []
  else if (projectFiltered raw).getLast? = some 'K' then
    projectCore (projectFiltered raw).dropLast true
  else
    projectCore (projectFiltered raw) false

/-- `normalizeProject` of src/index.js (also duplicated in src/index-av.js). -/
def normalizeProject (raw : String) : String :=
  ⟨normalizeProjectL raw.data⟩

/-- The fixed output shape claimed for `normalizeProject`: exactly 4 uppercase
letters, then exactly 4 digits, then nothing or a single `'K'`. -/
def projectShape (l : List Char) : Bool :=
  (l.take 4).length == 4 && (l.take 4).all Char.isUpper &&
    ((l.drop 4).take 4).length == 4 && ((l.drop 4).take 4).all Char.isDigit &&
    ((l.drop 8).isEmpty || (l.drop 8) == ['K'])

theorem padded_take_length (l pad : List Char) (hpad : pad.length = 4) :
    ((l ++ pad).take 4).length = 4 := by
  simp only [List.length_take, List.length_append, hpad]
  omega

theorem padded_take_all (l pad : List Char) (p : Char → Bool)
    (hl : ∀ c ∈ l, p c = true) (hp : ∀ c ∈ pad, p c = true) :
    ((l ++ pad).take 4).all p = true := by
  rw [List.all_eq_true]
  intro c hc
  rcases List.mem_append.mp (List.take_subset _ _ hc) with h | h
  · exact hl c h
  · exact hp c h

theorem projectCore_shape (s : List Char) (k : Bool) :
    projectShape (projectCore s k) = true := by
  unfold projectCore projectShape
  have hL : ((s.filter Char.isUpper ++ ['X', 'X', 'X', 'X']).take 4).length = 4 :=
    padded_take_length _ _ rfl
  have hD : ((s.filter Char.isDigit ++ ['0', '0', '0', '0']).take 4).length = 4 :=
    padded_take_length _ _ rfl
  have htake :
      ((s.filter Char.isUpper ++ ['X', 'X', 'X', 'X']).take 4 ++
        ((s.filter Char.isDigit ++ ['0', '0', '0', '0']).take 4 ++
          (if k then ['K'] else []))).take 4 =
      (s.filter Char.isUpper ++ ['X', 'X', 'X', 'X']).take 4 :=
    List.take_left' hL
  have hdrop :
      ((s.filter Char.isUpper ++ ['X', 'X', 'X', 'X']).take 4 ++
        ((s.filter Char.isDigit ++ ['0', '0', '0', '0']).take 4 ++
          (if k then ['K'] else []))).drop 4 =
      (s.filter Char.isDigit ++ ['0', '0', '0', '0']).take 4 ++
        (if k then ['K'] else []) :=
    List.drop_left' hL
  have htake2 :
      ((s.filter Char.isDigit ++ ['0', '0', '0', '0']).take 4 ++
        (if k then ['K'] else [])).take 4 =
      (s.filter Char.isDigit ++ ['0', '0', '0', '0']).take 4 :=
    List.take_left' hD
  have hdrop2 :
      ((s.filter Char.isDigit ++ ['0', '0', '0', '0']).take 4 ++
        (if k then ['K'] else [])).drop 4 = (if k then ['K'] else []) :=
    List.drop_left' hD
  have hdrop8 :
      ((s.filter Char.isUpper ++ ['X', 'X', 'X', 'X']).take 4 ++
        ((s.filter Char.isDigit ++ ['0', '0', '0', '0']).take 4 ++
          (if k then ['K'] else []))).drop 8 = (if k then ['K'] else []) := by
    have : (8 : Nat) = 4 + 4 := rfl
    rw [this, ← List.drop_drop, hdrop, hdrop2]
  rw [Bool.and_eq_true, Bool.and_eq_true, Bool.and_eq_true, Bool.and_eq_true]
  refine ⟨⟨⟨⟨?_, ?_⟩, ?_⟩, ?_⟩, ?_⟩
  · rw [htake, hL]
    simp
  · rw [htake]
    apply padded_take_all
    · intro c hc
      exact List.of_mem_filter hc
    · intro c hc
      have hx : c = 'X' := by simpa using hc
      subst hx
      decide
  · rw [hdrop, htake2, hD]
    simp
  · rw [hdrop, htake2]
    apply padded_take_all
    · intro c hc
      exact List.of_mem_filter hc
    · intro c hc
      have hx : c = '0' := by simpa using hc
      subst hx
      decide
  · rw [hdrop8]
    cases k <;> simp

theorem normalizeProjectL_shape (s : List Char) (h : s ≠ []) :
    projectShape (normalizeProjectL s) = true := by
  unfold normalizeProjectL
  rw [if_neg h]
  by_cases hK : (projectFiltered s).getLast? = some 'K'
  · rw [if_pos hK]
    exact projectCore_shape _ _
  · rw [if_neg hK]
    exact projectCore_shape _ _

/-- C5: as stated the claim is false — `normalizeProject` right-pads the digit
run with `'0'` (`(digits + '0000').slice(0, 4)`), so `"bl22k"` normalizes to
`"BLXX2200K"`, not to the left-padded `"BLXX0022K"` given in the claim. -/
theorem c5_normalizeProject_counterexample :
    normalizeProject "bl22k" = "BLXX2200K" ∧
    normalizeProject "bl22k" ≠ "BLXX0022K" := by
  refine ⟨by decide, by decide⟩

/-- C5 (amended): `normalizeProject` is total, and for every nonempty input
produces the fixed shape of exactly 4 uppercase letters (right-padded with
`'X'`) followed by exactly 4 digits (right-padded with `'0'`), optionally
followed by `'K'`; the empty string maps to the empty string.  In particular
`normalizeProject "befr0124" = "BEFR0124"` and
`normalizeProject "bl22k" = "BLXX2200K"` (right-padded digits). -/
theorem c5_normalizeProject_shape :
    (∀ s : String, s ≠ "" → projectShape (normalizeProject s).data = true) ∧
    normalizeProject "befr0124" = "BEFR0124" ∧
    normalizeProject "bl22k" = "BLXX2200K" ∧
    normalizeProject "" = "" := by
  refine ⟨?_, by decide, by decide, by decide⟩
  intro s hs
  apply normalizeProjectL_shape
  intro hdata
  apply hs
  cases s with
  | mk data => cases hdata; rfl

/-- Witness for C5 (amended): the shape clause applied at the concrete
malformed input `"zz9"` (which normalizes to `"ZZXX9000"`). -/
theorem c5_normalizeProject_shape_witness :
    projectShape (normalizeProject "zz9").data = true :=
  c5_normalizeProject_shape.1 "zz9" (by decide)

/-! ## Title case and drawing normalizer (`toTitleCase`, `normalizeDrawing`,
src/index.js) -/

/-- Whitespace test used for the JavaScript regexes `\s` and `String.trim`. -/
def isWsCh (c : Char) : Bool := c.isWhitespace

/-- Drop trailing whitespace (the right half of `String.trim`). -/
def rstripL (l : List Char) : List Char :=
  (l.reverse.dropWhile isWsCh).reverse

/-- `String.prototype.trim`: drop leading, then trailing whitespace. -/
def trimL (l : List Char) : List Char :=
  rstripL (l.dropWhile isWsCh)

/-- `str.split(/\s+/)` with empty fields dropped (the `map` in `toTitleCase`
sends an empty field to the empty word, so dropped and empty fields join to
the same string). -/
def splitWsAux (cur : List Char) : List Char → List (List Char)
  | [] => if cur = [] then [] else [cur]
  | c :: rest =>
    if isWsCh c then
      if cur = [] then splitWsAux [] rest
      else cur :: splitWsAux [] rest
    else splitWsAux (cur ++ [c]) rest

def splitWsL (l : List Char) : List (List Char) := splitWsAux [] l

/-- One word of `toTitleCase`:
`w.charAt(0).toUpperCase() + w.slice(1).toLowerCase()`. -/
def capWordL : List Char → List Char
  | [] => []
  | c :: rest => c.toUpper :: rest.map Char.toLower

/-- `Array.prototype.join(sep)`. -/
def joinSep (sep : List Char) : List (List Char) → List Char
  | [] => []
  | [w] => w
  | w :: ws => w ++ sep ++ joinSep sep ws

/-- `toTitleCase` of src/index.js:
`str.trim().split(/\s+/).map(capitalize).join(' ')`. -/
def toTitleCaseL (l : List Char) : List Char :=
  joinSep [' '] ((splitWsL (trimL l)).map capWordL)

def toTitleCase (s : String) : String := ⟨toTitleCaseL s.data⟩

/-- Tokens produced by the `normalizeDrawing` scanner: free-text segments and
matches of the BL-code regex `/[Bb][Ll]\s*\d+/`. -/
inductive DrawTok
  | text (value : List Char)
  | bl (value : List Char)
deriving DecidableEq

/-- A match of `/[Bb][Ll]\s*\d+/` at the start of the input, if any: a `B`
and an `L` in either case, greedy whitespace, then a nonempty greedy digit
run.  Returns the matched characters and the remaining input. -/
def matchBL : List Char → Option (List Char × List Char)
  | c0 :: c1 :: rest =>
    if (c0 == 'B' || c0 == 'b') && (c1 == 'L' || c1 == 'l') then
      let ws := rest.takeWhile isWsCh
      let after := rest.dropWhile isWsCh
      let ds := after.takeWhile Char.isDigit
      if ds = [] then none
      else some (c0 :: c1 :: (ws ++ ds), after.drop ds.length)
    else none
  | _ => none

/-- A text segment between regex matches: `input.slice(...).trim()`, pushed
only when nonempty (`if (pre) tokens.push(...)`). -/
def flushText (acc : List Char) : List DrawTok :=
  if trimL acc = [] then [] else [DrawTok.text (trimL acc)]

/-- The `re.exec` loop of `normalizeDrawing`: walk the input left to right;
at each leftmost regex match flush the accumulated free text and emit a BL
token, otherwise accumulate the character.  The fuel argument only bounds
the recursion; a match consumes at least one character, so fuel equal to the
input length never runs out. -/
def scanDrawAux : Nat → List Char → List Char → List DrawTok
  | 0, acc, l => flushText (acc ++ l)
  | fuel + 1, acc, l =>
    match l with
    | [] => flushText acc
    | c :: rest =>
      match matchBL (c :: rest) with
      | some (m, rest') => flushText acc ++ (DrawTok.bl m :: scanDrawAux fuel [] rest')
      | none => scanDrawAux fuel (acc ++ [c]) rest

/-- The token list of `normalizeDrawing` for a (trimmed) input. -/
def drawTokens (input : List Char) : List DrawTok :=
  scanDrawAux input.length [] input

/-- Normalization of a single BL token:
`t.value.toUpperCase().replace(/\s+/g, '')`, then `slice(2)` and strip
non-digits, default `'0'`, then `padStart(2, '0').slice(-2)`, prefixed with
the literal `"BL"`. -/
def renderTok : DrawTok → List Char
  | .text v => toTitleCaseL v
  | .bl v =>
    let s := (v.map Char.toUpper).filter (fun c => !isWsCh c)
    let num0 := (s.drop 2).filter Char.isDigit
    let num1 := if num0 = [] then ['0'] else num0
    let padded := if num1.length < 2 then List.replicate (2 - num1.length) '0' ++ num1 else num1
    'B' :: 'L' :: padded.drop (padded.length - 2)

/-- `normalizeDrawing` of src/index.js: falsy input maps to the empty
string; otherwise the trimmed input is tokenized, an empty token list keeps
the whole (title-cased) free text, and otherwise the rendered tokens are
joined with `", "`. -/
def normalizeDrawingL (raw : List Char) : List Char :=
  if raw = [] then []
  else if (drawTokens (trimL raw)).isEmpty then toTitleCaseL (trimL raw)
  else joinSep [',', ' '] ((drawTokens (trimL raw)).map renderTok)

def normalizeDrawing (s : String) : String := ⟨normalizeDrawingL s.data⟩

/-- Does the BL regex match anywhere in the input? -/
def hasBLMatch : List Char → Bool
  | [] => false
  | c :: rest => (matchBL (c :: rest)).isSome || hasBLMatch rest

theorem dropWhile_of_head_not (p : Char → Bool) (l : List Char)
    (h : ∀ c, l.head? = some c → p c = false) : l.dropWhile p = l := by
  cases l with
  | nil => rfl
  | cons c rest =>
    rw [List.dropWhile_cons, if_neg]
    simp [h c rfl]

theorem dropWhile_idem (p : Char → Bool) (l : List Char) :
    (l.dropWhile p).dropWhile p = l.dropWhile p := by
  apply dropWhile_of_head_not
  intro c hc
  have hd := List.head?_dropWhile_not p l
  rw [hc] at hd
  exact hd

theorem rstripL_prefix_self (l : List Char) : rstripL l <+: l := by
  have h := (List.dropWhile_suffix (l := l.reverse) isWsCh).reverse
  simpa [rstripL] using h

theorem head?_rstripL (l : List Char) (c : Char) (h : (rstripL l).head? = some c) :
    l.head? = some c := by
  obtain ⟨t, ht⟩ := rstripL_prefix_self l
  rw [← ht, List.head?_append, h]
  rfl

theorem dropWhile_trimL (l : List Char) :
    (trimL l).dropWhile isWsCh = trimL l := by
  apply dropWhile_of_head_not
  intro c hc
  have h2 := head?_rstripL _ _ hc
  have h3 := List.head?_dropWhile_not isWsCh l
  rw [h2] at h3
  exact h3

theorem rstripL_idem (l : List Char) : rstripL (rstripL l) = rstripL l := by
  unfold rstripL
  rw [List.reverse_reverse, dropWhile_idem]

theorem trimL_idem (l : List Char) : trimL (trimL l) = trimL l := by
  conv_lhs => rw [trimL, dropWhile_trimL]
  show rstripL (rstripL (l.dropWhile isWsCh)) = trimL l
  rw [rstripL_idem]
  rfl

theorem toTitleCaseL_trimL (l : List Char) : toTitleCaseL (trimL l) = toTitleCaseL l := by
  unfold toTitleCaseL
  rw [trimL_idem]

theorem scanDrawAux_no_match :
    ∀ (fuel : Nat) (acc l : List Char), hasBLMatch l = false →
      scanDrawAux fuel acc l = flushText (acc ++ l) := by
  intro fuel
  induction fuel with
  | zero => intro acc l _; rfl
  | succ n ih =>
    intro acc l h
    match l with
    | [] => simp [scanDrawAux]
    | c :: rest =>
      rw [hasBLMatch, Bool.or_eq_false_iff] at h
      obtain ⟨h1, h2⟩ := h
      cases hm : matchBL (c :: rest) with
      | none =>
        simp only [scanDrawAux, hm]
        rw [ih (acc ++ [c]) rest h2, List.append_assoc]
        rfl
      | some pr =>
        rw [hm] at h1
        simp at h1

theorem normalizeDrawingL_no_bl (raw : List Char) (h : hasBLMatch (trimL raw) = false) :
    normalizeDrawingL raw = toTitleCaseL raw := by
  by_cases hraw : raw = []
  · subst hraw; rfl
  · unfold normalizeDrawingL
    rw [if_neg hraw]
    have htok : drawTokens (trimL raw) = flushText (trimL raw) := by
      have := scanDrawAux_no_match (trimL raw).length [] (trimL raw) h
      simpa [drawTokens] using this
    rw [htok]
    unfold flushText
    rw [trimL_idem]
    by_cases hT : trimL raw = []
    · rw [if_pos hT]
      simp only [List.isEmpty_nil, if_true]
      exact toTitleCaseL_trimL raw
    · rw [if_neg hT]
      simp only [List.isEmpty_cons, if_false]
      show joinSep [',', ' '] [renderTok (DrawTok.text (trimL raw))] = toTitleCaseL raw
      show renderTok (DrawTok.text (trimL raw)) = toTitleCaseL raw
      show toTitleCaseL (trimL raw) = toTitleCaseL raw
      exact toTitleCaseL_trimL raw

/-- C6: `normalizeDrawing` rewrites each token matching the (case-insensitive)
BL-plus-digits pattern to the uppercase `BL` prefix followed by the last two
digits of the numeric run zero-padded, title-cases the free-text segments
between tokens, and joins everything with `", "` in the original order; an
input with no pattern token is title-cased as a whole.  Witnessed by the
claim's example `"tür vorne rechts bl7"`, a multi-token example showing
ordering, padding and truncation to the last two digits, and the general
no-token clause. -/
theorem c6_normalizeDrawing :
    normalizeDrawing "tür vorne rechts bl7" = "Tür Vorne Rechts, BL07" ∧
    normalizeDrawing "bl1 seite links bl123" = "BL01, Seite Links, BL23" ∧
    ∀ s : String, hasBLMatch (trimL s.data) = false → normalizeDrawing s = toTitleCase s := by
  refine ⟨by decide, by decide, ?_⟩
  intro s hs
  exact congrArg String.mk (normalizeDrawingL_no_bl s.data hs)

/-- Witness for C6: the no-token clause applied at the concrete input
`"tür vorne"`, which contains no BL code and is title-cased as a whole. -/
theorem c6_normalizeDrawing_witness :
    normalizeDrawing "tür vorne" = toTitleCase "tür vorne" :=
  c6_normalizeDrawing.2.2 "tür vorne" (by decide)

/-! ## List Sorter (`sortTasksByPriorityAndName`, src/index.js) -/

/-- A remote task as consumed by the sorter and the scan handlers: numeric
priority (Todoist: 4 = most urgent), content string, label names. -/
structure Task where
  priority : Int
  content : String
  labels : List String
deriving DecidableEq

/-- The comparator of `sortTasksByPriorityAndName`:
`b.priority - a.priority` when the priorities differ, otherwise
`a.content.localeCompare(b.content, 'de')`.  The locale-aware string
comparison is the ICU collator, kept abstract as the parameter `cmp`. -/
def taskCompare (cmp : String → String → Int) (a b : Task) : Int :=
  if a.priority ≠ b.priority then b.priority - a.priority
  else cmp a.content b.content

/-- Sort-before-or-equal order induced by the comparator (a JavaScript stable
sort places `a` before `b` when the comparator is nonpositive). -/
def taskLe (cmp : String → String → Int) (a b : Task) : Bool :=
  decide (taskCompare cmp a b ≤ 0)

/-- `sortTasksByPriorityAndName` of src/index.js:
`[...tasks].sort(comparator)`.  `Array.prototype.sort` is stable, and for a
consistent comparator the stable sorted permutation is unique, so any stable
sort under the induced order models it; `insertionSort` is used because it is
stable and evaluates by kernel reduction. -/
def sortTasksByPriorityAndName (cmp : String → String → Int) (tasks : List Task) :
    List Task :=
  List.insertionSort (fun a b => taskLe cmp a b = true) tasks

theorem taskLe_total (cmp : String → String → Int)
    (htotal : ∀ x y, cmp x y ≤ 0 ∨ cmp y x ≤ 0) (a b : Task) :
    (taskLe cmp a b || taskLe cmp b a) = true := by
  unfold taskLe taskCompare
  by_cases h : a.priority = b.priority
  · rw [if_neg (by simp [h]), if_neg (by simp [h])]
    rcases htotal a.content b.content with hc | hc <;> simp [hc]
  · rw [if_pos h, if_pos (fun hh => h hh.symm)]
    simp only [Bool.or_eq_true, decide_eq_true_eq]
    omega

theorem taskLe_trans (cmp : String → String → Int)
    (htrans : ∀ x y z, cmp x y ≤ 0 → cmp y z ≤ 0 → cmp x z ≤ 0)
    (a b c : Task) (hab : taskLe cmp a b = true) (hbc : taskLe cmp b c = true) :
    taskLe cmp a c = true := by
  unfold taskLe taskCompare at hab hbc ⊢
  simp only [decide_eq_true_eq] at hab hbc ⊢
  by_cases p1 : a.priority = b.priority <;> by_cases p2 : b.priority = c.priority
  · rw [if_neg (by simp [p1])] at hab
    rw [if_neg (by simp [p2])] at hbc
    rw [if_neg (by simp [p1.trans p2])]
    exact htrans _ _ _ hab hbc
  · rw [if_pos p2] at hbc
    have hac : a.priority ≠ c.priority := by omega
    rw [if_pos hac]
    omega
  · rw [if_pos p1] at hab
    have hac : a.priority ≠ c.priority := by omega
    rw [if_pos hac]
    omega
  · rw [if_pos p1] at hab
    rw [if_pos p2] at hbc
    have hac : a.priority ≠ c.priority := by omega
    rw [if_pos hac]
    omega

theorem taskLe_unfolds (cmp : String → String → Int) (a b : Task)
    (h : taskLe cmp a b = true) :
    b.priority < a.priority ∨
      (a.priority = b.priority ∧ cmp a.content b.content ≤ 0) := by
  unfold taskLe taskCompare at h
  simp only [decide_eq_true_eq] at h
  by_cases hp : a.priority = b.priority
  · rw [if_neg (by simp [hp])] at h
    exact Or.inr ⟨hp, h⟩
  · rw [if_pos hp] at h
    exact Or.inl (by omega)

/-- C7: the List Sorter returns a permutation of its input, ordered primarily
by descending numeric priority and secondarily by ascending locale
comparison of content, and is stable for tasks with equal priority and equal
content.  `cmp` abstracts `localeCompare(·, 'de')`; the hypotheses are the
sign laws every ICU collator satisfies (reflexivity, totality,
transitivity of the nonpositive-comparison relation). -/
theorem c7_sortTasks (cmp : String → String → Int)
    (hrefl : ∀ x, cmp x x = 0)
    (htotal : ∀ x y, cmp x y ≤ 0 ∨ cmp y x ≤ 0)
    (htrans : ∀ x y z, cmp x y ≤ 0 → cmp y z ≤ 0 → cmp x z ≤ 0)
    (tasks : List Task) :
    (sortTasksByPriorityAndName cmp tasks).Perm tasks ∧
    (sortTasksByPriorityAndName cmp tasks).Pairwise
      (fun a b => b.priority < a.priority ∨
        (a.priority = b.priority ∧ cmp a.content b.content ≤ 0)) ∧
    (∀ a b : Task, a.priority = b.priority → a.content = b.content →
      List.Sublist [a, b] tasks →
      List.Sublist [a, b] (sortTasksByPriorityAndName cmp tasks)) := by
  refine ⟨List.perm_insertionSort _ tasks, ?_, ?_⟩
  · letI : IsTotal Task (fun a b => taskLe cmp a b = true) := by
      constructor
      intro a b
      have h := taskLe_total cmp htotal a b
      rcases Bool.or_eq_true_iff.mp h with h1 | h1
      · exact Or.inl h1
      · exact Or.inr h1
    letI : IsTrans Task (fun a b => taskLe cmp a b = true) := by
      constructor
      intro a b c hab hbc
      exact taskLe_trans cmp htrans a b c hab hbc
    have hs := List.sorted_insertionSort (fun a b => taskLe cmp a b = true) tasks
    exact hs.imp (fun h => taskLe_unfolds cmp _ _ h)
  · intro a b hp hc hsub
    apply List.pair_sublist_insertionSort ?_ hsub
    unfold taskLe taskCompare
    rw [if_neg (by simp [hp]), hc]
    simp [hrefl]

/-- Sum of the character codes of a string; a monotone key on the witness
contents. -/
def charSum (s : String) : Nat := (s.data.map Char.toNat).sum

/-- A concrete total comparison standing in for `localeCompare(·, 'de')` in
the witness: the signed difference of character-code sums.  It satisfies the
collator sign laws and agrees with the German collation on the single
uppercase ASCII letters used in the witness. -/
def cmpCode (a b : String) : Int :=
  (charSum a : Int) - (charSum b : Int)

theorem cmpCode_refl (x : String) : cmpCode x x = 0 := by simp [cmpCode]

theorem cmpCode_total (x y : String) : cmpCode x y ≤ 0 ∨ cmpCode y x ≤ 0 := by
  unfold cmpCode
  omega

theorem cmpCode_trans (x y z : String) (h1 : cmpCode x y ≤ 0) (h2 : cmpCode y z ≤ 0) :
    cmpCode x z ≤ 0 := by
  unfold cmpCode at h1 h2 ⊢
  omega

/-- The example task list of the claim: B at priority 4, A at priority 4,
Z at priority 2. -/
def exTasks : List Task :=
  [⟨4, "B", []⟩, ⟨4, "A", []⟩, ⟨2, "Z", []⟩]

/-- Witness for C7: the sorter theorem applied at a concrete comparison and
the claim's example list, together with the concrete result
A(4), B(4), Z(2). -/
theorem c7_sortTasks_witness :
    sortTasksByPriorityAndName cmpCode exTasks =
      [⟨4, "A", []⟩, ⟨4, "B", []⟩, ⟨2, "Z", []⟩] ∧
    ((sortTasksByPriorityAndName cmpCode exTasks).Perm exTasks ∧
      (sortTasksByPriorityAndName cmpCode exTasks).Pairwise
        (fun a b => b.priority < a.priority ∨
          (a.priority = b.priority ∧ cmpCode a.content b.content ≤ 0)) ∧
      (∀ a b : Task, a.priority = b.priority → a.content = b.content →
        List.Sublist [a, b] exTasks →
        List.Sublist [a, b] (sortTasksByPriorityAndName cmpCode exTasks))) :=
  ⟨by decide, c7_sortTasks cmpCode cmpCode_refl cmpCode_total cmpCode_trans exTasks⟩

/-! ## Scan and complete handlers (src/index.js, src/index-av.js)

The handlers are modelled as pure state transformers.  The server state is
the Completion Log plus the multiset of successful remote close calls; the
outcome of each remote call a handler may make is an explicit parameter, and
every handler additionally returns the ordered trace of log and remote
effects it issued. -/

/-- Remote-service and Completion-Log effects a handler can issue. -/
inductive Eff
  | logGet (taskId : String)
  | logSet (taskId : String)
  | remoteGetTask (taskId : String)
  | remoteClose (taskId : String)
  | remoteList (label : String)
deriving DecidableEq

/-- Server-side state the handlers act on: the Completion Log and the task
ids successfully closed at the remote task service (one entry per successful
`closeTask` call). -/
structure ScanState where
  log : Log
  closedIds : List String
deriving DecidableEq

/-- Outcomes of the remote calls a scan-POST request may make:
`getTaskRes` is the fetched task (`none` models a thrown request),
`closeOk` tells whether `closeTask` succeeds, and `listRes` is the
open-task listing for the label (`none` models a thrown request). -/
structure Remote where
  getTaskRes : Option Task
  closeOk : Bool
  listRes : Option (List Task)
deriving DecidableEq

/-- The signature gate `if (!sig || sig !== expected)` shared by all scan and
complete handlers, with `expected = signTaskId(taskId)`: a missing signature,
an empty (falsy) signature and a mismatched signature are all rejected.
`sign` abstracts `signTaskId` (HMAC-SHA256 of the task id under the
server-held secret). -/
def sigOk (sign : String → String) (taskId : String) (sig : Option String) : Bool :=
  match sig with
  | none => false
  | some s => !(s == "") && s == sign taskId

/-- Outcomes of GET /scan/:taskId. -/
inductive ScanGetRes
  | rejected403
  | alreadyDone (ts : String)
  | promptForm
deriving DecidableEq

/-- GET /scan/:taskId of src/index.js: verify the signature (403 on failure,
nothing touched); consult the Completion Log; an existing record renders the
already-done page with the stored timestamp, otherwise the yes/no form is
rendered.  No remote call and no write happens in either branch. -/
def scanGet (sign : String → String) (st : ScanState) (taskId : String)
    (sig : Option String) : ScanGetRes × ScanState × List Eff :=
  if sigOk sign taskId sig then
    match getCompletedFromLog st.log taskId with
    | some ts => (ScanGetRes.alreadyDone ts, st, [Eff.logGet taskId])
    | none => (ScanGetRes.promptForm, st, [Eff.logGet taskId])
  else (ScanGetRes.rejected403, st, [])

/-- Outcomes of POST /scan/:taskId. -/
inductive ScanPostRes
  | rejected403
  | aborted
  | closeFailed502
  | doneNoLabel
  | doneAllLoaded
  | doneWithList (remaining : List Task)
deriving DecidableEq

/-- POST /scan/:taskId of src/index.js: verify the signature (403, nothing
touched); any answer other than `"yes"` renders the aborted page with no
further effect; otherwise fetch the task for its first label (failures
tolerated, label unknown), `closeTask` (on failure respond 502 and record
nothing), then `setCompleted` with the server-side timestamp `now`, then a
best-effort open-task listing by label (failure degrades to the empty list),
sorted for the success page.  The index-av.js variant differs only in
storing a Node-side ISO timestamp via `setCompletedInLog`, which by
`setCompleted_eq_setCompletedInLog` is the same log operation. -/
def scanPost (sign : String → String) (cmp : String → String → Int)
    (st : ScanState) (taskId : String) (sig : Option String)
    (answer : Option String) (remote : Remote) (now : String) :
    ScanPostRes × ScanState × List Eff :=
  if sigOk sign taskId sig then
    if answer = some "yes" then
      let labelName : Option String :=
        match remote.getTaskRes with
        | some t =>
          match t.labels with
          | [] => none
          | l :: _ => some l
        | none => none
      if remote.closeOk then
        let st1 : ScanState :=
          { log := setCompleted st.log taskId now, closedIds := st.closedIds ++ [taskId] }
        match labelName with
        | none =>
          (ScanPostRes.doneNoLabel, st1,
            [Eff.remoteGetTask taskId, Eff.remoteClose taskId, Eff.logSet taskId])
        | some lbl =>
          match remote.listRes with
          | some tasksList =>
            if (sortTasksByPriorityAndName cmp tasksList).isEmpty then
              (ScanPostRes.doneAllLoaded, st1,
                [Eff.remoteGetTask taskId, Eff.remoteClose taskId, Eff.logSet taskId,
                  Eff.remoteList lbl])
            else
              (ScanPostRes.doneWithList (sortTasksByPriorityAndName cmp tasksList), st1,
                [Eff.remoteGetTask taskId, Eff.remoteClose taskId, Eff.logSet taskId,
                  Eff.remoteList lbl])
          | none =>
            (ScanPostRes.doneAllLoaded, st1,
              [Eff.remoteGetTask taskId, Eff.remoteClose taskId, Eff.logSet taskId,
                Eff.remoteList lbl])
      else
        (ScanPostRes.closeFailed502, st, [Eff.remoteGetTask taskId, Eff.remoteClose taskId])
    else (ScanPostRes.aborted, st, [])
  else (ScanPostRes.rejected403, st, [])

/-- Outcomes of GET /complete/:taskId. -/
inductive CompleteRes
  | rejected403
  | alreadyDonePage (ts : String)
  | successPage
  | error500
deriving DecidableEq

/-- GET /complete/:taskId of src/index.js (current variant): verify the
signature; an existing log record renders the already-done page with the
stored timestamp; otherwise `closeTask` (a throw reaches the catch-all 500,
nothing recorded) followed by `setCompleted` and the confirmation page. -/
def completeGet (sign : String → String) (st : ScanState) (taskId : String)
    (sig : Option String) (closeOk : Bool) (now : String) :
    CompleteRes × ScanState × List Eff :=
  if sigOk sign taskId sig then
    match getCompletedFromLog st.log taskId with
    | some ts => (CompleteRes.alreadyDonePage ts, st, [Eff.logGet taskId])
    | none =>
      if closeOk then
        (CompleteRes.successPage,
          { log := setCompleted st.log taskId now, closedIds := st.closedIds ++ [taskId] },
          [Eff.logGet taskId, Eff.remoteClose taskId, Eff.logSet taskId])
      else (CompleteRes.error500, st, [Eff.logGet taskId, Eff.remoteClose taskId])
  else (CompleteRes.rejected403, st, [])

/-- GET /complete/:taskId of src/index-av.js: after the same signature and
log checks the handler runs `await closeTask(taskId); await closeTask(taskId);`
— the remote close is issued twice — and never writes the Completion Log
before rendering the success page.  Each close can fail independently
(`closeOk1`, `closeOk2`); a throw reaches the catch-all 500. -/
def completeGetAv (sign : String → String) (st : ScanState) (taskId : String)
    (sig : Option String) (closeOk1 closeOk2 : Bool) :
    CompleteRes × ScanState × List Eff :=
  if sigOk sign taskId sig then
    match getCompletedFromLog st.log taskId with
    | some ts => (CompleteRes.alreadyDonePage ts, st, [Eff.logGet taskId])
    | none =>
      if closeOk1 then
        if closeOk2 then
          (CompleteRes.successPage,
            { log := st.log, closedIds := st.closedIds ++ [taskId] ++ [taskId] },
            [Eff.logGet taskId, Eff.remoteClose taskId, Eff.remoteClose taskId])
        else
          (CompleteRes.error500,
            { log := st.log, closedIds := st.closedIds ++ [taskId] },
            [Eff.logGet taskId, Eff.remoteClose taskId, Eff.remoteClose taskId])
      else (CompleteRes.error500, st, [Eff.logGet taskId, Eff.remoteClose taskId])
  else (CompleteRes.rejected403, st, [])

/-- Terminal outcomes of one full scan-driven completion workflow run. -/
inductive WfRes
  | rejected
  | alreadyDone (ts : String)
  | completed (r : ScanPostRes)
deriving DecidableEq

/-- One full run of the completion workflow as driven by scanning the QR
code: GET /scan decides; the already-done page is terminal, otherwise the
user confirms and POST /scan with answer yes executes the close-and-log
step. -/
def scanWorkflow (sign : String → String) (cmp : String → String → Int)
    (st : ScanState) (taskId : String) (sig : Option String)
    (remote : Remote) (now : String) : WfRes × ScanState :=
  match scanGet sign st taskId sig with
  | (ScanGetRes.rejected403, st1, _) => (WfRes.rejected, st1)
  | (ScanGetRes.alreadyDone ts, st1, _) => (WfRes.alreadyDone ts, st1)
  | (ScanGetRes.promptForm, st1, _) =>
    (WfRes.completed (scanPost sign cmp st1 taskId sig (some "yes") remote now).1,
      (scanPost sign cmp st1 taskId sig (some "yes") remote now).2.1)

theorem sigOk_valid (sign : String → String) (taskId : String) (h : sign taskId ≠ "") :
    sigOk sign taskId (some (sign taskId)) = true := by
  unfold sigOk
  simp [h]

theorem sigOk_invalid (sign : String → String) (taskId : String) (sig : Option String)
    (h : ∀ s, sig = some s → s ≠ sign taskId) : sigOk sign taskId sig = false := by
  unfold sigOk
  cases sig with
  | none => rfl
  | some s => simp [h s rfl]

theorem scanGet_fresh (sign : String → String) (st : ScanState) (taskId : String)
    (sig : Option String) (hsig : sigOk sign taskId sig = true)
    (hfresh : getCompletedFromLog st.log taskId = none) :
    scanGet sign st taskId sig = (ScanGetRes.promptForm, st, [Eff.logGet taskId]) := by
  unfold scanGet
  rw [if_pos hsig, hfresh]

theorem scanGet_done (sign : String → String) (st : ScanState) (taskId ts : String)
    (sig : Option String) (hsig : sigOk sign taskId sig = true)
    (hts : getCompletedFromLog st.log taskId = some ts) :
    scanGet sign st taskId sig = (ScanGetRes.alreadyDone ts, st, [Eff.logGet taskId]) := by
  unfold scanGet
  rw [if_pos hsig, hts]

theorem scanPost_yes_ok_state (sign : String → String) (cmp : String → String → Int)
    (st : ScanState) (taskId : String) (sig : Option String) (remote : Remote) (now : String)
    (hsig : sigOk sign taskId sig = true) (hclose : remote.closeOk = true) :
    (scanPost sign cmp st taskId sig (some "yes") remote now).2.1 =
      { log := setCompleted st.log taskId now, closedIds := st.closedIds ++ [taskId] } := by
  unfold scanPost
  rw [if_pos hsig, if_pos rfl]
  simp only [hclose, if_true]
  split
  · rfl
  · split
    · split <;> rfl
    · rfl

theorem scanWorkflow_fresh (sign : String → String) (cmp : String → String → Int)
    (st : ScanState) (taskId : String) (sig : Option String) (remote : Remote) (now : String)
    (hsig : sigOk sign taskId sig = true)
    (hfresh : getCompletedFromLog st.log taskId = none) :
    scanWorkflow sign cmp st taskId sig remote now =
      (WfRes.completed (scanPost sign cmp st taskId sig (some "yes") remote now).1,
        (scanPost sign cmp st taskId sig (some "yes") remote now).2.1) := by
  unfold scanWorkflow
  rw [scanGet_fresh sign st taskId sig hsig hfresh]

theorem scanWorkflow_done (sign : String → String) (cmp : String → String → Int)
    (st : ScanState) (taskId ts : String) (sig : Option String) (remote : Remote)
    (now : String) (hsig : sigOk sign taskId sig = true)
    (hts : getCompletedFromLog st.log taskId = some ts) :
    scanWorkflow sign cmp st taskId sig remote now = (WfRes.alreadyDone ts, st) := by
  unfold scanWorkflow
  rw [scanGet_done sign st taskId ts sig hsig hts]

/-- C2: running the completion workflow twice with a valid signature yields
ALREADY_DONE on the second run, returning exactly the timestamp recorded by
the first run; the state after the second run equals the state after the
first run, so the log record is unchanged and no further remote close is
issued.  The second run's remote outcomes and clock are arbitrary.  The
workflow here is the scan flow as driven by the QR code: GET /scan (which
consults the log) followed, only when the form is shown, by POST /scan with
answer yes. -/
theorem c2_scan_workflow_idempotent (sign : String → String)
    (cmp : String → String → Int) (st0 : ScanState) (taskId : String)
    (remote remote' : Remote) (now now' : String)
    (hsign : sign taskId ≠ "")
    (hfresh : getCompletedFromLog st0.log taskId = none)
    (hclose : remote.closeOk = true) :
    (scanWorkflow sign cmp
        (scanWorkflow sign cmp st0 taskId (some (sign taskId)) remote now).2
        taskId (some (sign taskId)) remote' now').1 = WfRes.alreadyDone now ∧
    getCompletedFromLog
        (scanWorkflow sign cmp st0 taskId (some (sign taskId)) remote now).2.log taskId =
      some now ∧
    (scanWorkflow sign cmp
        (scanWorkflow sign cmp st0 taskId (some (sign taskId)) remote now).2
        taskId (some (sign taskId)) remote' now').2 =
      (scanWorkflow sign cmp st0 taskId (some (sign taskId)) remote now).2 := by
  have hsig := sigOk_valid sign taskId hsign
  have hst1 : (scanWorkflow sign cmp st0 taskId (some (sign taskId)) remote now).2 =
      { log := setCompleted st0.log taskId now, closedIds := st0.closedIds ++ [taskId] } := by
    rw [scanWorkflow_fresh sign cmp st0 taskId _ remote now hsig hfresh]
    exact scanPost_yes_ok_state sign cmp st0 taskId _ remote now hsig hclose
  have hget : getCompletedFromLog
      (scanWorkflow sign cmp st0 taskId (some (sign taskId)) remote now).2.log taskId =
      some now := by
    rw [hst1]
    exact get_setCompleted_same st0.log taskId now
  refine ⟨?_, hget, ?_⟩
  · rw [scanWorkflow_done sign cmp _ taskId now _ remote' now' hsig hget]
  · rw [scanWorkflow_done sign cmp _ taskId now _ remote' now' hsig hget]

/-- Witness for C2: a concrete double run — empty log, task id 42, constant
signer, first close succeeding — whose second run reports ALREADY_DONE with
the first run's timestamp and leaves the state untouched. -/
theorem c2_scan_workflow_idempotent_witness :
    (scanWorkflow (fun _ => "s") cmpCode
        (scanWorkflow (fun _ => "s") cmpCode ⟨[], []⟩ "42" (some "s")
          ⟨none, true, none⟩ "2024-01-01T10:00:00Z").2
        "42" (some "s") ⟨none, false, none⟩ "2024-02-02T12:00:00Z").1 =
      WfRes.alreadyDone "2024-01-01T10:00:00Z" ∧
    getCompletedFromLog
        (scanWorkflow (fun _ => "s") cmpCode ⟨[], []⟩ "42" (some "s")
          ⟨none, true, none⟩ "2024-01-01T10:00:00Z").2.log "42" =
      some "2024-01-01T10:00:00Z" ∧
    (scanWorkflow (fun _ => "s") cmpCode
        (scanWorkflow (fun _ => "s") cmpCode ⟨[], []⟩ "42" (some "s")
          ⟨none, true, none⟩ "2024-01-01T10:00:00Z").2
        "42" (some "s") ⟨none, false, none⟩ "2024-02-02T12:00:00Z").2 =
      (scanWorkflow (fun _ => "s") cmpCode ⟨[], []⟩ "42" (some "s")
        ⟨none, true, none⟩ "2024-01-01T10:00:00Z").2 :=
  c2_scan_workflow_idempotent (fun _ => "s") cmpCode ⟨[], []⟩ "42"
    ⟨none, true, none⟩ ⟨none, false, none⟩ "2024-01-01T10:00:00Z" "2024-02-02T12:00:00Z"
    (by decide) (by decide) (by decide)

/-- C3: a missing or mismatched signature makes every scan and complete
handler answer 403 with the state untouched and an empty effect trace — the
Completion Log is neither read nor written and no remote call is issued. -/
theorem c3_signature_rejection (sign : String → String) (cmp : String → String → Int)
    (st : ScanState) (taskId : String) (sig : Option String) (answer : Option String)
    (remote : Remote) (now : String) (closeOk : Bool)
    (hbad : ∀ s, sig = some s → s ≠ sign taskId) :
    scanGet sign st taskId sig = (ScanGetRes.rejected403, st, []) ∧
    scanPost sign cmp st taskId sig answer remote now = (ScanPostRes.rejected403, st, []) ∧
    completeGet sign st taskId sig closeOk now = (CompleteRes.rejected403, st, []) ∧
    completeGetAv sign st taskId sig closeOk closeOk = (CompleteRes.rejected403, st, []) := by
  have hsig := sigOk_invalid sign taskId sig hbad
  refine ⟨?_, ?_, ?_, ?_⟩
  · unfold scanGet
    rw [hsig]
    rfl
  · unfold scanPost
    rw [hsig]
    rfl
  · unfold completeGet
    rw [hsig]
    rfl
  · unfold completeGetAv
    rw [hsig]
    rfl

/-- Witness for C3: a concrete wrong signature against a constant signer is
rejected by all four handlers with no effect. -/
theorem c3_signature_rejection_witness :
    scanGet (fun _ => "s") ⟨[], []⟩ "42" (some "wrong") =
      (ScanGetRes.rejected403, ⟨[], []⟩, []) ∧
    scanPost (fun _ => "s") cmpCode ⟨[], []⟩ "42" (some "wrong") (some "yes")
        ⟨none, true, none⟩ "2024-01-01T10:00:00Z" =
      (ScanPostRes.rejected403, ⟨[], []⟩, []) ∧
    completeGet (fun _ => "s") ⟨[], []⟩ "42" (some "wrong") true "2024-01-01T10:00:00Z" =
      (CompleteRes.rejected403, ⟨[], []⟩, []) ∧
    completeGetAv (fun _ => "s") ⟨[], []⟩ "42" (some "wrong") true true =
      (CompleteRes.rejected403, ⟨[], []⟩, []) :=
  c3_signature_rejection (fun _ => "s") cmpCode ⟨[], []⟩ "42" (some "wrong")
    (some "yes") ⟨none, true, none⟩ "2024-01-01T10:00:00Z" true
    (fun s h => by cases h; decide)

/-- C8: when the remote close fails during a confirmed scan, the handler
answers with the 502 page and nothing is persisted: the state (Completion
Log included) is returned unchanged, and the effect trace contains the task
fetch and the failed close but no log write. -/
theorem c8_close_failed_atomic (sign : String → String) (cmp : String → String → Int)
    (st : ScanState) (taskId : String) (sig : Option String) (remote : Remote)
    (now : String) (hsig : sigOk sign taskId sig = true)
    (hclose : remote.closeOk = false) :
    scanPost sign cmp st taskId sig (some "yes") remote now =
      (ScanPostRes.closeFailed502, st, [Eff.remoteGetTask taskId, Eff.remoteClose taskId]) := by
  unfold scanPost
  rw [if_pos hsig, if_pos rfl]
  simp [hclose]

/-- Witness for C8: a concrete failing close on a fresh task id leaves the
empty state unchanged and reports the 502 outcome. -/
theorem c8_close_failed_atomic_witness :
    scanPost (fun _ => "s") cmpCode ⟨[], []⟩ "42" (some "s") (some "yes")
        ⟨none, false, none⟩ "2024-01-01T10:00:00Z" =
      (ScanPostRes.closeFailed502, ⟨[], []⟩,
        [Eff.remoteGetTask "42", Eff.remoteClose "42"]) :=
  c8_close_failed_atomic (fun _ => "s") cmpCode ⟨[], []⟩ "42" (some "s")
    ⟨none, false, none⟩ "2024-01-01T10:00:00Z" (by decide) (by decide)

/-- C9: the claim holds for the current src/index.js variant of
GET /complete (one close, one log write, confirmation page) but the
src/index-av.js variant contradicts it — on a valid, not-yet-completed task
it issues the remote close twice and never writes the Completion Log before
showing the success page. -/
theorem c9_complete_av_double_close :
    completeGetAv (fun _ => "s") ⟨[], []⟩ "42" (some "s") true true =
      (CompleteRes.successPage, ⟨[], ["42", "42"]⟩,
        [Eff.logGet "42", Eff.remoteClose "42", Eff.remoteClose "42"]) ∧
    completeGet (fun _ => "s") ⟨[], []⟩ "42" (some "s") true "2024-01-01T10:00:00Z" =
      (CompleteRes.successPage, ⟨[("42", "2024-01-01T10:00:00Z")], ["42"]⟩,
        [Eff.logGet "42", Eff.remoteClose "42", Eff.logSet "42"]) := by
  refine ⟨by decide, by decide⟩

/-- C10: a POST /scan with a valid signature whose answer is anything other
than yes (for example no, or a missing field) returns the aborted page and
has no effect at all: the state is unchanged and the effect trace is empty,
so the remote task is not closed and the log is neither read nor written. -/
theorem c10_non_yes_aborts (sign : String → String) (cmp : String → String → Int)
    (st : ScanState) (taskId : String) (sig : Option String) (answer : Option String)
    (remote : Remote) (now : String) (hsig : sigOk sign taskId sig = true)
    (hans : answer ≠ some "yes") :
    scanPost sign cmp st taskId sig answer remote now = (ScanPostRes.aborted, st, []) := by
  unfold scanPost
  rw [if_pos hsig, if_neg hans]

/-- Witness for C10: a concrete valid-signature POST answering no leaves the
state untouched and reports the aborted page. -/
theorem c10_non_yes_aborts_witness :
    scanPost (fun _ => "s") cmpCode ⟨[("7", "2024-01-01T10:00:00Z")], []⟩ "42"
        (some "s") (some "no") ⟨none, true, none⟩ "2024-02-02T12:00:00Z" =
      (ScanPostRes.aborted, ⟨[("7", "2024-01-01T10:00:00Z")], []⟩, []) :=
  c10_non_yes_aborts (fun _ => "s") cmpCode ⟨[("7", "2024-01-01T10:00:00Z")], []⟩
    "42" (some "s") (some "no") ⟨none, true, none⟩ "2024-02-02T12:00:00Z"
    (by decide) (by decide)

/-! ## Middleware pipeline (src/index.js) -/

/-- `String.startsWith` on the character lists (the byte-based library
version is observationally the same on these ASCII paths). -/
def strStarts (pre s : String) : Bool := List.isPrefixOf pre.data s.data

/-- The routes served by the av router of src/av/avRoutes.js. -/
def avRoutesMatch (method path : String) : Bool :=
  (method == "GET" && path == "/api/av/labels") ||
  (method == "POST" && path == "/api/av/create") ||
  (method == "GET" && strStarts "/api/av/list/" path)

/-- The routes registered on the app itself (they run after `basicAuth`). -/
def appRoutesMatch (method path : String) : Bool :=
  (method == "GET" && (path == "/health" || strStarts "/complete/" path ||
      strStarts "/scan/" path || path == "/" || path == "/av" ||
      strStarts "/av/list/" path)) ||
  (method == "POST" && (strStarts "/scan/" path || path == "/make-labels"))

/-- How the middleware pipeline disposes of a request. -/
inductive HttpOutcome
  | servedByAvRoutes
  | unauthorized401
  | servedAfterAuth
  | notFound404
deriving DecidableEq

/-- The Express pipeline of src/index.js in registration order:
`app.use(avRoutes)` is mounted before `app.use(basicAuth)`, so a request
matching an av route is served without any credential check; only afterwards
does `basicAuth` wave through paths starting with /health, /scan or
/complete and demand valid Basic credentials for everything else (401 with
no other effect on failure).  `auth` is the decoded Basic credential pair;
`none` covers both a missing and a non-Basic Authorization header. -/
def appDispatch (adminUser adminPass method path : String)
    (auth : Option (String × String)) : HttpOutcome :=
  if avRoutesMatch method path then HttpOutcome.servedByAvRoutes
  else if strStarts "/health" path || strStarts "/scan" path ||
      strStarts "/complete" path then
    (if appRoutesMatch method path then HttpOutcome.servedAfterAuth
      else HttpOutcome.notFound404)
  else
    match auth with
    | none => HttpOutcome.unauthorized401
    | some (u, p) =>
      if u == adminUser && p == adminPass then
        (if appRoutesMatch method path then HttpOutcome.servedAfterAuth
          else HttpOutcome.notFound404)
      else HttpOutcome.unauthorized401

/-- C4: contrary to the claim, the /api/av routes are reachable with no
credentials at all: the av router is mounted before the basicAuth middleware
in src/index.js, so an unauthenticated GET /api/av/labels,
POST /api/av/create or GET /api/av/list/{id} is served by the router and
never sees a 401, while a protected app route such as POST /make-labels is
indeed gated (401 without credentials, served with valid ones). -/
theorem c4_av_routes_bypass_basic_auth :
    appDispatch "admin" "pw" "GET" "/api/av/labels" none = HttpOutcome.servedByAvRoutes ∧
    appDispatch "admin" "pw" "GET" "/api/av/labels" none ≠ HttpOutcome.unauthorized401 ∧
    appDispatch "admin" "pw" "POST" "/api/av/create" none = HttpOutcome.servedByAvRoutes ∧
    appDispatch "admin" "pw" "GET" "/api/av/list/abc" none = HttpOutcome.servedByAvRoutes ∧
    appDispatch "admin" "pw" "POST" "/make-labels" none = HttpOutcome.unauthorized401 ∧
    appDispatch "admin" "pw" "POST" "/make-labels" (some ("admin", "pw")) =
      HttpOutcome.servedAfterAuth := by
  refine ⟨by decide, by decide, by decide, by decide, by decide, by decide⟩

end Lager
